import Mathlib

/-!
# Verification of the mcp-server-db-insert pipeline

Shallow embedding of the JSON-RPC-to-database pipeline of
`src/servers/src/mcp-parser/src/mcp_server_db_insert/` (files
`jsonrpc_parser.py`, `data_transformer.py`, `database_manager.py`,
`server.py`), together with proofs and refutations of the specified
properties.

Python values reachable in this pipeline are modelled by the inductive
type `PyVal`; Python `dict`s are modelled as ordered association lists
(first occurrence of a key is its position, as in CPython dicts).
Machine-level details that cannot occur on this code path (e.g. float
payloads) carry their textual representation.
-/

namespace McpDbInsert

/-- Python values flowing through the pipeline.  JSON decoding produces
`none`, `boolean`, `int`, `float`, `str`, `list`, `dict`; the transformer
additionally handles `datetime.datetime`, `datetime.date`, `datetime.time`,
`decimal.Decimal`, `bytes` and `uuid.UUID` objects (payloads carry their
textual representation, byte values their byte list). -/
inductive PyVal where
  | none : PyVal
  | boolean : Bool → PyVal
  | int : Int → PyVal
  | float : String → PyVal
  | str : String → PyVal
  | list : List PyVal → PyVal
  | dict : List (String × PyVal) → PyVal
  | datetime : String → PyVal
  | date : String → PyVal
  | time : String → PyVal
  | decimal : String → PyVal
  | bytes : List Nat → PyVal
  | uuidv : String → PyVal

/-- Python `v is None`. -/
def PyVal.isNone : PyVal → Bool
  | .none => true
  | _ => false

/-- Python `v == s` for a string literal `s` (true only for equal `str`). -/
def PyVal.eqStr (v : PyVal) (s : String) : Bool :=
  match v with
  | .str t => t = s
  | _ => false

/-- A record destined for storage: an ordered field-name → value mapping
(a Python `dict`). -/
abbrev Record := List (String × PyVal)

/-- `d[k] = v` on an ordered Python dict: overwrite the value at the first
occurrence of `k` in place, otherwise append `(k, v)` at the end. -/
def dictSet (d : List (String × PyVal)) (k : String) (v : PyVal) :
    List (String × PyVal) :=
  match d with
  | [] => [(k, v)]
  | (k1, v1) :: rest =>
      if k1 = k then (k1, v) :: rest else (k1, v1) :: dictSet rest k v

/-- Python `dict(items)`: left-to-right insertion with overwrite. -/
def pyDict (items : List (String × PyVal)) : List (String × PyVal) :=
  items.foldl (fun d p => dictSet d p.1 p.2) []

/-- Python `d.update(u)`: insert every pair of `u` into `d` in order. -/
def dictUpdate (d u : List (String × PyVal)) : List (String × PyVal) :=
  u.foldl (fun d p => dictSet d p.1 p.2) d

/-- `type(v).__name__` for the modelled Python values. -/
def pyTypeName : PyVal → String
  | .none => "NoneType"
  | .boolean _ => "bool"
  | .int _ => "int"
  | .float _ => "float"
  | .str _ => "str"
  | .list _ => "list"
  | .dict _ => "dict"
  | .datetime _ => "datetime"
  | .date _ => "date"
  | .time _ => "time"
  | .decimal _ => "Decimal"
  | .bytes _ => "bytes"
  | .uuidv _ => "UUID"

/-- Python truthiness (`bool(v)`) for the modelled values.  A float is
falsy exactly when it is zero; on the textual payload this is modelled by
the three spellings that occur for zero literals. -/
def pyTruthy : PyVal → Bool
  | .none => false
  | .boolean b => b
  | .int n => n ≠ 0
  | .float s => ¬(s = "0.0" ∨ s = "-0.0" ∨ s = "0")
  | .str s => s ≠ ""
  | .list xs => !xs.isEmpty
  | .dict fs => !fs.isEmpty
  | .datetime _ => true
  | .date _ => true
  | .time _ => true
  | .decimal s => ¬(s = "0" ∨ s = "0.0")
  | .bytes bs => bs ≠ []
  | .uuidv _ => true

/-! ## Field-name sanitization (`jsonrpc_parser.sanitize_field_name`)

Character classes are stated on Unicode code points; the regex classes
`[a-zA-Z0-9_]` and `[a-zA-Z_]` of the source are the code-point ranges
below. -/

/-- Membership in the regex class `[a-zA-Z0-9_]` (code points). -/
def isWordChar (c : Char) : Bool :=
  (97 ≤ c.toNat && c.toNat ≤ 122) || (65 ≤ c.toNat && c.toNat ≤ 90) ||
  (48 ≤ c.toNat && c.toNat ≤ 57) || c.toNat = 95

/-- Membership in the regex class `[a-zA-Z_]` (leading character). -/
def isLeadChar (c : Char) : Bool :=
  (97 ≤ c.toNat && c.toNat ≤ 122) || (65 ≤ c.toNat && c.toNat ≤ 90) ||
  c.toNat = 95

/-- `re.sub(r'[^a-zA-Z0-9_]', '_', ·)` acting on one character. -/
def subChar (c : Char) : Char :=
  if isWordChar c then c else '_'

/-- Python `str.lower()` restricted to the ASCII range; every string this
pipeline lowercases consists of `[A-Za-z0-9_]` characters only, where this
agrees with CPython. -/
def pyLowerChar (c : Char) : Char :=
  if 65 ≤ c.toNat && c.toNat ≤ 90 then Char.ofNat (c.toNat + 32) else c

/-- `re.match(r'^[a-zA-Z_]', s)` as a Boolean. -/
def startsLead (l : List Char) : Bool :=
  match l with
  | [] => false
  | c :: _ => isLeadChar c

/-- First reassignment of `sanitize_field_name`:
`re.sub(r'[^a-zA-Z0-9_]', '_', str(name))`. -/
def sanitizeSub (l : List Char) : List Char := l.map subChar

/-- Second reassignment: prepend `field_` when the string does not start
with `[a-zA-Z_]`. -/
def sanitizePrepend (l : List Char) : List Char :=
  if startsLead l then l else ("field_".data ++ l)

/-- Third reassignment: truncate to 63 characters (PostgreSQL limit). -/
def sanitizeTrunc (l : List Char) : List Char :=
  if l.length > 63 then l.take 63 else l

/-- `sanitize_field_name` on the character list of the input
(`jsonrpc_parser.py` lines 249–273): replace non-word characters by `_`,
prepend `field_` when the result does not start with `[a-zA-Z_]`, truncate
to 63 characters, lowercase. -/
def sanitizeChars (l : List Char) : List Char :=
  (sanitizeTrunc (sanitizePrepend (sanitizeSub l))).map pyLowerChar

/-- `sanitize_field_name(name)` of `jsonrpc_parser.py`. -/
def sanitize_field_name (name : String) : String :=
  String.mk (sanitizeChars name.data)

/-- Membership in `[a-z0-9_]` (code points). -/
def isLowerWord (c : Char) : Bool :=
  (97 ≤ c.toNat && c.toNat ≤ 122) || (48 ≤ c.toNat && c.toNat ≤ 57) ||
  c.toNat = 95

/-- Membership in `[a-z_]` (code points). -/
def isLowerLead (c : Char) : Bool :=
  (97 ≤ c.toNat && c.toNat ≤ 122) || c.toNat = 95

/-- Matching the anchored regex `^[a-z_][a-z0-9_]*$`. -/
def matchesSanitized (l : List Char) : Bool :=
  match l with
  | [] => false
  | c :: rest => isLowerLead c && rest.all isLowerWord

/-! ## JSON serialization (`json.dumps`) and JSON purity -/

/-- One character of a JSON string literal (quote and backslash escaped;
control-character escapes are not modelled — no claim depends on the
serialized text, only on it being a `str`). -/
def jsonEscapeChar (c : Char) : String :=
  if c = '"' then "\\\"" else if c = '\\' then "\\\\" else String.mk [c]

/-- A JSON string literal. -/
def jsonQuote (s : String) : String :=
  "\"" ++ String.join (s.data.map jsonEscapeChar) ++ "\""

/-- `json.dumps` with its default separators.  On values outside the JSON
domain (`datetime`, `date`, `time`, `decimal`, `bytes`, `uuidv`) CPython
raises `TypeError`; those cases are modelled by the payload text and are
outside every property proved below (which assume JSON-pure inputs). -/
def jsonDumps : PyVal → String
  | .none => "null"
  | .boolean true => "true"
  | .boolean false => "false"
  | .int n => toString n
  | .float s => s
  | .str s => jsonQuote s
  | .list xs =>
      "[" ++ String.intercalate ", "
        (xs.attach.map fun x => jsonDumps x.1) ++ "]"
  | .dict fs =>
      "\x7b" ++ String.intercalate ", "
        (fs.attach.map fun p => jsonQuote p.1.1 ++ ": " ++ jsonDumps p.1.2)
      ++ "\x7d"
  | .datetime s => s
  | .date s => s
  | .time s => s
  | .decimal s => s
  | .bytes _ => ""
  | .uuidv s => s
decreasing_by
  · have h1 := List.sizeOf_lt_of_mem x.2
    simp only [PyVal.list.sizeOf_spec]
    omega
  · have h1 := List.sizeOf_lt_of_mem p.2
    have h2 : sizeOf p.1.2 < sizeOf p.1 := by
      obtain ⟨⟨a, b⟩, hp⟩ := p
      simp only [Prod.mk.sizeOf_spec]
      omega
    simp only [PyVal.dict.sizeOf_spec]
    omega

/-- The value lies in the image of JSON decoding (the only values that
reach `flatten_nested_dict` in the pipeline). -/
def isJsonVal : PyVal → Bool
  | .none => true
  | .boolean _ => true
  | .int _ => true
  | .float _ => true
  | .str _ => true
  | .list xs => xs.attach.all fun x => isJsonVal x.1
  | .dict fs => fs.attach.all fun p => isJsonVal p.1.2
  | _ => false
decreasing_by
  · have h1 := List.sizeOf_lt_of_mem x.2
    simp only [PyVal.list.sizeOf_spec]
    omega
  · have h1 := List.sizeOf_lt_of_mem p.2
    have h2 : sizeOf p.1.2 < sizeOf p.1 := by
      obtain ⟨⟨a, b⟩, hp⟩ := p
      simp only [Prod.mk.sizeOf_spec]
      omega
    simp only [PyVal.dict.sizeOf_spec]
    omega

/-- Every value of the record lies in the JSON domain. -/
def isJsonRecord (r : Record) : Bool :=
  r.all fun p => isJsonVal p.2

/-! ## Flattening (`jsonrpc_parser.flatten_nested_dict`) -/

/-- The loop body of `flatten_nested_dict` accumulating `items`
(`jsonrpc_parser.py` lines 288–299): each nested dict contributes the
items of its own flattened dict, each list is serialized to JSON text,
scalars pass through.  The Python function returns `dict(items)` at every
level, modelled by `pyDict` below. -/
def flattenItems : List (String × PyVal) → String → List (String × PyVal)
  | [], _ => []
  | (k, v) :: rest, parent =>
      let newKey :=
        sanitize_field_name (if parent = "" then k else parent ++ "_" ++ k)
      (match v with
       | .dict fs => pyDict (flattenItems fs newKey)
       | .list xs => [(newKey, .str (jsonDumps (.list xs)))]
       | w => [(newKey, w)]) ++ flattenItems rest parent
termination_by l _ => sizeOf l
decreasing_by
  all_goals simp only [Prod.mk.sizeOf_spec, PyVal.dict.sizeOf_spec,
    List.cons.sizeOf_spec]
  all_goals omega

/-- `flatten_nested_dict(data, parent_key)` of `jsonrpc_parser.py` with
the default separator. -/
def flatten_nested_dict (data : Record) (parent_key : String) : Record :=
  pyDict (flattenItems data parent_key)

/-- The value is neither a mapping nor a sequence (the only shapes
`flatten_nested_dict` ever leaves in its output values). -/
def isScalarVal : PyVal → Bool
  | .dict _ => false
  | .list _ => false
  | _ => true

/-! ## JSON-RPC envelopes (`jsonrpc_parser.py`) -/

/-- `mcp.types.ErrorData` (only the fields this code sets). -/
structure ErrorData where
  code : Int
  message : String
  deriving DecidableEq

/-- `mcp.types.INVALID_PARAMS`. -/
def INVALID_PARAMS : Int := -32602

/-- `mcp.types.INTERNAL_ERROR`. -/
def INTERNAL_ERROR : Int := -32603

/-- An exception escaping a pipeline function: an `McpError` carrying
`ErrorData`, or the `AttributeError` CPython raises when `.get` is called
on a non-dict truthy error value. -/
inductive PyErr where
  | mcp : ErrorData → PyErr
  | attrError : PyErr
  deriving DecidableEq

/-- `data.get(k)`: the value at the first occurrence of `k`, and Python
`None` when the key is absent. -/
def pyGet (fields : List (String × PyVal)) (k : String) : PyVal :=
  match List.lookup k fields with
  | some v => v
  | Option.none => .none

/-- `k in data` for a dict. -/
def hasKey (fields : List (String × PyVal)) (k : String) : Bool :=
  (List.lookup k fields).isSome

/-- The dataclass `JsonRpcResponse`; absent optional fields hold Python
`None`, modelled as `PyVal.none`. -/
structure JsonRpcResponse where
  jsonrpc : String
  id : PyVal
  result : PyVal
  error : PyVal
  method : PyVal
  params : PyVal

/-- `JsonRpcResponse.is_success`: `error is None`. -/
def JsonRpcResponse.is_success (r : JsonRpcResponse) : Bool :=
  r.error.isNone

/-- `JsonRpcResponse.is_error`: `error is not None`. -/
def JsonRpcResponse.is_error (r : JsonRpcResponse) : Bool :=
  !r.error.isNone

/-- `JsonRpcResponse.is_notification`: `method is not None and id is None`. -/
def JsonRpcResponse.is_notification (r : JsonRpcResponse) : Bool :=
  !r.method.isNone && r.id.isNone

/-- `parse_jsonrpc_response` (`jsonrpc_parser.py` lines 37–110) after JSON
decoding: the argument is the decoded JSON value of the input text.
Malformed-JSON failures belong to the text-level decoder and are not
modelled; every structural check of the source is. -/
def parse_jsonrpc_response (data : PyVal) : Except PyErr JsonRpcResponse :=
  match data with
  | .dict fields =>
      if !(pyGet fields "jsonrpc").eqStr "2.0" then
        .error (.mcp ⟨INVALID_PARAMS,
          "Unsupported JSON-RPC version. Only 2.0 is supported."⟩)
      else
        let rpcId := pyGet fields "id"
        let result := pyGet fields "result"
        let error := pyGet fields "error"
        let method := pyGet fields "method"
        let params := pyGet fields "params"
        if hasKey fields "id" then
          if !result.isNone && !error.isNone then
            .error (.mcp ⟨INVALID_PARAMS,
              "JSON-RPC response cannot have both \x27result\x27 and \x27error\x27 fields"⟩)
          else if result.isNone && error.isNone then
            .error (.mcp ⟨INVALID_PARAMS,
              "JSON-RPC response must have either \x27result\x27 or \x27error\x27 field"⟩)
          else
            .ok ⟨"2.0", rpcId, result, error, method, params⟩
        else if hasKey fields "method" then
          if hasKey fields "result" || hasKey fields "error" then
            .error (.mcp ⟨INVALID_PARAMS,
              "JSON-RPC notification cannot have \x27result\x27 or \x27error\x27 fields"⟩)
          else
            .ok ⟨"2.0", rpcId, result, error, method, params⟩
        else
          .error (.mcp ⟨INVALID_PARAMS,
            "JSON-RPC response must have either \x27id\x27 or \x27method\x27 field"⟩)
  | _ =>
      .error (.mcp ⟨INVALID_PARAMS, "JSON-RPC response must be an object"⟩)

/-- The error record built for an error envelope
(`jsonrpc_parser.py` lines 130–137); `response.error.get(...)` is guarded
by Python truthiness of `response.error`, and raises `AttributeError` for
a truthy non-dict error value. -/
def errorRecord (r : JsonRpcResponse) : Except PyErr Record :=
  if pyTruthy r.error then
    match r.error with
    | .dict fs =>
        .ok [("jsonrpc_id", r.id), ("jsonrpc_version", .str r.jsonrpc),
             ("error_code", pyGet fs "code"),
             ("error_message", pyGet fs "message"),
             ("error_data", pyGet fs "data"),
             ("is_error", .boolean true)]
    | _ => .error .attrError
  else
    .ok [("jsonrpc_id", r.id), ("jsonrpc_version", .str r.jsonrpc),
         ("error_code", .none), ("error_message", .none),
         ("error_data", .none), ("is_error", .boolean true)]

/-- One record of the array-result loop (`jsonrpc_parser.py` lines
170–189), at 0-based index `i`. -/
def arrayItemRecord (r : JsonRpcResponse) (i : Nat) (item : PyVal) : Record :=
  match item with
  | .dict fs =>
      dictUpdate fs
        [("jsonrpc_id", r.id), ("jsonrpc_version", .str r.jsonrpc),
         ("result_index", .int i), ("is_success", .boolean true)]
  | v =>
      [("jsonrpc_id", r.id), ("jsonrpc_version", .str r.jsonrpc),
       ("result_value", v), ("result_index", .int i),
       ("result_type", .str (pyTypeName v)), ("is_success", .boolean true)]

/-- The `for i, item in enumerate(response.result)` loop, starting at
index `i`. -/
def arrayRecords (r : JsonRpcResponse) : List PyVal → Nat → List Record
  | [], _ => []
  | item :: rest, i => arrayItemRecord r i item :: arrayRecords r rest (i + 1)

/-- The success branch of `extract_data_from_jsonrpc`
(`jsonrpc_parser.py` lines 150–198). -/
def successRecords (r : JsonRpcResponse) : List Record :=
  match r.result with
  | .none =>
      [[("jsonrpc_id", r.id), ("jsonrpc_version", .str r.jsonrpc),
        ("result", .none), ("is_success", .boolean true)]]
  | .dict fields =>
      [dictUpdate fields
        [("jsonrpc_id", r.id), ("jsonrpc_version", .str r.jsonrpc),
         ("is_success", .boolean true)]]
  | .list xs => arrayRecords r xs 0
  | v =>
      [[("jsonrpc_id", r.id), ("jsonrpc_version", .str r.jsonrpc),
        ("result_value", v), ("result_type", .str (pyTypeName v)),
        ("is_success", .boolean true)]]

/-- `extract_data_from_jsonrpc(response)` (`jsonrpc_parser.py` lines
113–200). -/
def extract_data_from_jsonrpc (r : JsonRpcResponse) :
    Except PyErr (List Record) :=
  if r.is_error then
    (errorRecord r).map fun rec => [rec]
  else if r.is_notification then
    .ok [[("jsonrpc_version", .str r.jsonrpc), ("method", r.method),
          ("params", r.params), ("is_notification", .boolean true)]]
  else
    .ok (successRecords r)

/-- `validate_jsonrpc_batch` (`jsonrpc_parser.py` lines 203–246) after
JSON decoding: a non-empty array is decoded envelope by envelope (the
first failure aborts with its index), anything else is a single envelope.
The Python `json.dumps`/re-parse round trip of each array element is the
identity on the decoded value. -/
def validate_jsonrpc_batch (data : PyVal) :
    Except PyErr (List JsonRpcResponse) :=
  match data with
  | .list items =>
      if items.length = 0 then
        .error (.mcp ⟨INVALID_PARAMS, "JSON-RPC batch cannot be empty"⟩)
      else
        let step := fun (acc : Except PyErr (List JsonRpcResponse))
            (item : Nat × PyVal) =>
          match acc with
          | .error e => .error e
          | .ok rs =>
              match parse_jsonrpc_response item.2 with
              | .ok r => .ok (rs ++ [r])
              | .error (.mcp e) =>
                  .error (.mcp ⟨INVALID_PARAMS,
                    "Invalid item at index " ++ toString item.1 ++
                    " in batch: " ++ e.message⟩)
              | .error e => .error e
        items.enum.foldl step (.ok [])
  | _ => (parse_jsonrpc_response data).map fun r => [r]

/-- Steps 1 and 2 of `process_jsonrpc_to_db` (`server.py` lines 121–144):
decode the batch, extract records from every envelope, and concatenate.
The orchestrator takes its zero-records early return exactly when this
yields `.ok []`. -/
def pipelineExtract (data : PyVal) : Except PyErr (List Record) :=
  match validate_jsonrpc_batch data with
  | .error e => .error e
  | .ok responses =>
      let step := fun (acc : Except PyErr (List Record))
          (r : JsonRpcResponse) =>
        match acc with
        | .error e => .error e
        | .ok recs =>
            match extract_data_from_jsonrpc r with
            | .ok rs => .ok (recs ++ rs)
            | .error e => .error e
      responses.foldl step (.ok [])

/-! ## Data transformer (`data_transformer.py`) -/

/-- The `DatabaseType` enum. -/
inductive DatabaseType where
  | postgresql
  | mongodb
  | sqlite
  | redis
  | mysql
  deriving DecidableEq

/-- `DataTransformer._get_type_mappings` (`data_transformer.py` lines
40–121): the per-backend semantic-type → physical-type dict. -/
def type_mappings (dt : DatabaseType) (key : String) : Option String :=
  match dt with
  | .postgresql =>
      List.lookup key
        [("str", "TEXT"), ("int", "INTEGER"), ("float", "REAL"),
         ("bool", "BOOLEAN"), ("datetime", "TIMESTAMP"), ("date", "DATE"),
         ("time", "TIME"), ("uuid", "UUID"), ("json", "JSONB"),
         ("list", "JSONB"), ("dict", "JSONB"), ("decimal", "NUMERIC"),
         ("bytes", "BYTEA")]
  | .mysql =>
      List.lookup key
        [("str", "TEXT"), ("int", "INT"), ("float", "DOUBLE"),
         ("bool", "BOOLEAN"), ("datetime", "DATETIME"), ("date", "DATE"),
         ("time", "TIME"), ("uuid", "CHAR(36)"), ("json", "JSON"),
         ("list", "JSON"), ("dict", "JSON"), ("decimal", "DECIMAL(10,2)"),
         ("bytes", "BLOB")]
  | .sqlite =>
      List.lookup key
        [("str", "TEXT"), ("int", "INTEGER"), ("float", "REAL"),
         ("bool", "INTEGER"), ("datetime", "TEXT"), ("date", "TEXT"),
         ("time", "TEXT"), ("uuid", "TEXT"), ("json", "TEXT"),
         ("list", "TEXT"), ("dict", "TEXT"), ("decimal", "REAL"),
         ("bytes", "BLOB")]
  | .mongodb =>
      List.lookup key
        [("str", "string"), ("int", "int"), ("float", "double"),
         ("bool", "bool"), ("datetime", "date"), ("date", "date"),
         ("time", "string"), ("uuid", "string"), ("json", "object"),
         ("list", "array"), ("dict", "object"), ("decimal", "decimal"),
         ("bytes", "binData")]
  | .redis =>
      List.lookup key
        [("str", "string"), ("int", "string"), ("float", "string"),
         ("bool", "string"), ("datetime", "string"), ("date", "string"),
         ("time", "string"), ("uuid", "string"), ("json", "string"),
         ("list", "string"), ("dict", "hash"), ("decimal", "string"),
         ("bytes", "string")]

/-- `self.type_mappings.get(key, default)`. -/
def tmGet (dt : DatabaseType) (key dflt : String) : String :=
  (type_mappings dt key).getD dflt

/-- ASCII decimal digit. -/
def isDigitChar (c : Char) : Bool := 48 ≤ c.toNat && c.toNat ≤ 57

/-- ASCII hexadecimal digit. -/
def isHexChar (c : Char) : Bool :=
  (48 ≤ c.toNat && c.toNat ≤ 57) || (97 ≤ c.toNat && c.toNat ≤ 102) ||
  (65 ≤ c.toNat && c.toNat ≤ 70)

/-- Python `str.strip('{}')`: drop leading and trailing braces. -/
def stripBraces (l : List Char) : List Char :=
  ((l.dropWhile fun c => c.toNat = 123 || c.toNat = 125).reverse.dropWhile
    fun c => c.toNat = 123 || c.toNat = 125).reverse

/-- `DataTransformer._is_uuid_string` (`data_transformer.py` lines
154–160), following the CPython `uuid.UUID` string constructor: delete
`urn:` and `uuid:`, strip braces, delete hyphens, then require exactly 32
hexadecimal digits.  (Underscore-grouped integer literals accepted by
`int(_, 16)` are not modelled.) -/
def is_uuid_string (s : String) : Bool :=
  let t := (s.replace "urn:" "").replace "uuid:" ""
  let h := (String.mk (stripBraces t.data)).replace "-" ""
  h.length = 32 && h.data.all isHexChar

/-- Numeric value of a decimal digit character. -/
def digitVal (c : Char) : Nat := c.toNat - 48

/-- Leap year (proleptic Gregorian, as `datetime`). -/
def isLeapYear (y : Nat) : Bool :=
  (y % 4 = 0 && y % 100 ≠ 0) || y % 400 = 0

/-- Days in a month, as `datetime` validates them. -/
def daysInMonth (y m : Nat) : Nat :=
  if m = 2 then (if isLeapYear y then 29 else 28)
  else if m = 4 || m = 6 || m = 9 || m = 11 then 30
  else 31

/-- Parse the mandatory `YYYY-MM-DD` prefix of an ISO date. -/
def parseIsoDate (l : List Char) : Option (Nat × Nat × Nat × List Char) :=
  match l with
  | a :: b :: c :: d :: s1 :: e :: f :: s2 :: g :: h :: rest =>
      if ([a, b, c, d, e, f, g, h].all isDigitChar) && s1 = '-' && s2 = '-'
      then
        some (1000 * digitVal a + 100 * digitVal b + 10 * digitVal c +
                digitVal d,
              10 * digitVal e + digitVal f, 10 * digitVal g + digitVal h,
              rest)
      else Option.none
  | _ => Option.none

/-- Parse a two-digit group. -/
def parseTwoDigits (l : List Char) : Option (Nat × List Char) :=
  match l with
  | a :: b :: rest =>
      if isDigitChar a && isDigitChar b then
        some (10 * digitVal a + digitVal b, rest)
      else Option.none
  | _ => Option.none

/-- Parse an optional fractional part `.fff` or `.ffffff`. -/
def parseIsoFraction (l : List Char) : Option (List Char) :=
  match l with
  | '.' :: rest =>
      let digits := rest.takeWhile isDigitChar
      if digits.length = 3 || digits.length = 6 then
        some (rest.drop digits.length)
      else Option.none
  | _ => some l

/-- Parse `HH[:MM[:SS[.fff[fff]]]]` and validate the ranges. -/
def parseIsoTime (l : List Char) : Option (List Char) :=
  match parseTwoDigits l with
  | some (hh, rest) =>
      if hh ≤ 23 then
        match rest with
        | ':' :: rest2 =>
            match parseTwoDigits rest2 with
            | some (mm, rest3) =>
                if mm ≤ 59 then
                  match rest3 with
                  | ':' :: rest4 =>
                      match parseTwoDigits rest4 with
                      | some (ss, rest5) =>
                          if ss ≤ 59 then parseIsoFraction rest5
                          else Option.none
                      | Option.none => Option.none
                  | _ => some rest3
                else Option.none
            | Option.none => Option.none
        | _ => some rest
      else Option.none
  | Option.none => Option.none

/-- Parse an optional `±HH:MM[:SS[.ffffff]]` timezone offset, which must
consume the rest of the input. -/
def parseIsoOffset (l : List Char) : Bool :=
  match l with
  | [] => true
  | s :: rest =>
      if s = '+' || s = '-' then
        match parseTwoDigits rest with
        | some (oh, ':' :: rest2) =>
            (match parseTwoDigits rest2 with
             | some (om, rest3) =>
                 oh ≤ 23 && om ≤ 59 &&
                 (match rest3 with
                  | [] => true
                  | ':' :: rest4 =>
                      (match parseTwoDigits rest4 with
                       | some (os, rest5) =>
                           os ≤ 59 &&
                           (match parseIsoFraction rest5 with
                            | some [] => true
                            | _ => false)
                       | Option.none => false)
                  | _ => false)
             | Option.none => false)
        | _ => false
      else false

/-- `DataTransformer._is_datetime_string` (`data_transformer.py` lines
162–168): replace every `Z` by `+00:00`, then accept what
`datetime.fromisoformat` accepts —
`YYYY-MM-DD[*HH[:MM[:SS[.fff[fff]]]][±HH:MM[:SS[.ffffff]]]]` with a
calendar-valid date, where `*` is an arbitrary single separator
character. -/
def is_datetime_string (s : String) : Bool :=
  let t := s.replace "Z" "+00:00"
  match parseIsoDate t.data with
  | some (y, mo, d, rest) =>
      1 ≤ y && 1 ≤ mo && mo ≤ 12 && 1 ≤ d && d ≤ daysInMonth y mo &&
      (match rest with
       | [] => true
       | _ :: timePart =>
           match parseIsoTime timePart with
           | some rest2 => parseIsoOffset rest2
           | Option.none => false)
  | Option.none => false

/-- `DataTransformer.infer_field_type` (`data_transformer.py` lines
123–152). -/
def infer_field_type (dt : DatabaseType) (v : PyVal) : String :=
  match v with
  | .none => tmGet dt "str" "TEXT"
  | .str s =>
      if is_uuid_string s then tmGet dt "uuid" "TEXT"
      else if is_datetime_string s then tmGet dt "datetime" "TEXT"
      else tmGet dt "str" "TEXT"
  | .dict _ => tmGet dt "json" "TEXT"
  | .list _ => tmGet dt "json" "TEXT"
  | .datetime _ => tmGet dt "datetime" "TEXT"
  | .date _ => tmGet dt "date" "TEXT"
  | .time _ => tmGet dt "time" "TEXT"
  | .decimal _ => tmGet dt "decimal" "REAL"
  | .bytes _ => tmGet dt "bytes" "TEXT"
  | .boolean _ => tmGet dt "bool" "TEXT"
  | .int _ => tmGet dt "int" "TEXT"
  | .float _ => tmGet dt "float" "TEXT"
  | .uuidv _ => tmGet dt "UUID" "TEXT"

/-- `schema[field] = t` on the ordered schema dict. -/
def schemaSet (s : List (String × String)) (k t : String) :
    List (String × String) :=
  match s with
  | [] => [(k, t)]
  | (k1, t1) :: rest =>
      if k1 = k then (k1, t) :: rest else (k1, t1) :: schemaSet rest k t

/-- The conflict-resolution body of the `infer_schema` loop
(`data_transformer.py` lines 385–399) for one field name and its already
inferred `fieldType`, including the comparison against the literal
`INTEGER`/`REAL` names. -/
def inferSchemaFieldCore (dt : DatabaseType)
    (schema : List (String × String)) (fname fieldType : String) :
    List (String × String) :=
  match List.lookup fname schema with
  | some existingType =>
      if existingType ≠ fieldType then
        if existingType = "INTEGER" && fieldType = "REAL" then
          schemaSet schema fname fieldType
        else if existingType = "REAL" && fieldType = "INTEGER" then
          schema
        else
          schemaSet schema fname (tmGet dt "str" "TEXT")
      else schema
  | Option.none => schemaSet schema fname fieldType

/-- The per-field body of the `infer_schema` loop: first infer the value
type (`field_type = self.infer_field_type(value)`), then resolve. -/
def inferSchemaField (dt : DatabaseType) (schema : List (String × String))
    (p : String × PyVal) : List (String × String) :=
  inferSchemaFieldCore dt schema p.1 (infer_field_type dt p.2)

/-- `DataTransformer.infer_schema` (`data_transformer.py` lines
375–401). -/
def infer_schema (dt : DatabaseType) (records : List Record) :
    List (String × String) :=
  if records.isEmpty then []
  else records.foldl (fun schema r => r.foldl (inferSchemaField dt) schema) []

/-- Python `str(v)` for the scalar values that reach the final branch of
`_transform_for_redis` (plus reasonable text for the remaining
constructors, which cannot reach it). -/
def pyStr : PyVal → String
  | .none => "None"
  | .boolean true => "True"
  | .boolean false => "False"
  | .int n => toString n
  | .float s => s
  | .str s => s
  | .list xs => jsonDumps (.list xs)
  | .dict fs => jsonDumps (.dict fs)
  | .datetime s => s
  | .date s => s
  | .time s => s
  | .decimal s => s
  | .bytes _ => ""
  | .uuidv s => s

/-- Hexadecimal text of a byte list (`bytes.hex()`). -/
def bytesHex (bs : List Nat) : String :=
  String.join (bs.map fun b =>
    String.mk [Char.ofNat (hexDigitChar (b / 16 % 16)).toNat,
               Char.ofNat (hexDigitChar (b % 16)).toNat])
where
  hexDigitChar (n : Nat) : Char :=
    if n < 10 then Char.ofNat (48 + n) else Char.ofNat (87 + n)

/-- `DataTransformer._transform_for_sqlite` (`data_transformer.py` lines
190–204). -/
def transformForSqlite (v : PyVal) (_targetType : String) : PyVal :=
  match v with
  | .boolean b => .int (if b then 1 else 0)
  | .datetime s => .str s
  | .date s => .str s
  | .time s => .str s
  | .dict fs => .str (jsonDumps (.dict fs))
  | .list xs => .str (jsonDumps (.list xs))
  | .uuidv s => .str s
  | .decimal s => .float s
  | .bytes bs => .bytes bs
  | w => w

/-- `DataTransformer._transform_for_redis` (`data_transformer.py` lines
206–225). -/
def transformForRedis (v : PyVal) (targetType : String) : PyVal :=
  match v with
  | .dict fs =>
      if targetType = "hash" then
        .dict (fs.map fun p => (p.1, .str (pyStr p.2)))
      else .str (jsonDumps (.dict fs))
  | .list xs => .str (jsonDumps (.list xs))
  | .datetime s => .str s
  | .date s => .str s
  | .time s => .str s
  | .uuidv s => .str s
  | .boolean b => .str (if b then "true" else "false")
  | .bytes bs => .str (bytesHex bs)
  | w => .str (pyStr w)

/-- `DataTransformer._transform_for_mongodb` (`data_transformer.py` lines
227–241). -/
def transformForMongodb (v : PyVal) (_targetType : String) : PyVal :=
  match v with
  | .dict fs => .dict fs
  | .list xs => .list xs
  | .uuidv s => .str s
  | .datetime s => .datetime s
  | .date s => .date s
  | .time s => .str s
  | .decimal s => .float s
  | .bytes bs => .bytes bs
  | w => w

/-- `DataTransformer._transform_for_sql` (`data_transformer.py` lines
243–256), used for PostgreSQL and MySQL. -/
def transformForSql (v : PyVal) (_targetType : String) : PyVal :=
  match v with
  | .dict fs => .str (jsonDumps (.dict fs))
  | .list xs => .str (jsonDumps (.list xs))
  | .uuidv s => .str s
  | .decimal s => .decimal s
  | .datetime s => .datetime s
  | .date s => .date s
  | .time s => .time s
  | w => w

/-- `DataTransformer.transform_value` (`data_transformer.py` lines
170–188): `None` is returned unchanged before any backend-specific
conversion; otherwise the missing target type is inferred and the
backend-specific transform applied. -/
def transform_value (dt : DatabaseType) (value : PyVal)
    (targetType : Option String) : PyVal :=
  match value with
  | .none => .none
  | v =>
      let tt :=
        match targetType with
        | some t => t
        | Option.none => infer_field_type dt v
      match dt with
      | .sqlite => transformForSqlite v tt
      | .redis => transformForRedis v tt
      | .mongodb => transformForMongodb v tt
      | _ => transformForSql v tt

/-! ## Backend selection (`database_manager.py`) -/

/-- The five connection classes of `DatabaseManager.CONNECTION_CLASSES`. -/
inductive ConnectionClass where
  | postgreSQLConnection
  | sqliteConnection
  | mongoDBConnection
  | redisConnection
  | mySQLConnection
  deriving DecidableEq

/-- `DatabaseManager.CONNECTION_CLASSES` (`database_manager.py` lines
624–630). -/
def CONNECTION_CLASSES (dt : DatabaseType) : Option ConnectionClass :=
  match dt with
  | .postgresql => some .postgreSQLConnection
  | .sqlite => some .sqliteConnection
  | .mongodb => some .mongoDBConnection
  | .redis => some .redisConnection
  | .mysql => some .mySQLConnection

/-- `str.startswith(pre)` (structural, so that concrete connection
strings evaluate inside the kernel). -/
def pyStartsWith (s pre : String) : Bool :=
  pre.data.isPrefixOf s.data

/-- Membership in `urllib.parse.scheme_chars`
(`[A-Za-z0-9+.-]`, code points). -/
def isSchemeChar (c : Char) : Bool :=
  (97 ≤ c.toNat && c.toNat ≤ 122) || (65 ≤ c.toNat && c.toNat ≤ 90) ||
  (48 ≤ c.toNat && c.toNat ≤ 57) || c.toNat = 43 || c.toNat = 45 ||
  c.toNat = 46

/-- ASCII letter. -/
def isAsciiAlpha (c : Char) : Bool :=
  (97 ≤ c.toNat && c.toNat ≤ 122) || (65 ≤ c.toNat && c.toNat ≤ 90)

/-- The characters before the first `:` of the list, or Python `None`
when no colon occurs (`url.find(':')`). -/
def beforeColon : List Char → Option (List Char)
  | [] => Option.none
  | c :: rest =>
      if c = ':' then some []
      else (beforeColon rest).map fun l => c :: l

/-- `l` starts with `c`. -/
def headIs (l : List Char) (p : Char → Bool) : Bool :=
  match l with
  | [] => false
  | c :: _ => p c

/-- The scheme component of `urllib.parse.urlparse(url)` (CPython
`urlsplit`): the text before the first `:`, provided it is non-empty,
starts with an ASCII letter and consists of scheme characters; `''`
otherwise.  `DatabaseManager.create_connection` lowercases it again,
which is modelled inside `urlparseScheme` (the source computes
`parsed.scheme.lower()`, and `urlsplit` already lowercases). -/
def urlparseScheme (url : String) : String :=
  match beforeColon url.data with
  | some before =>
      if !before.isEmpty && headIs before isAsciiAlpha &&
          before.all isSchemeChar then
        String.mk (before.map pyLowerChar)
      else ""
  | Option.none => ""

/-- `DatabaseManager.create_connection` (`database_manager.py` lines
632–663) up to the choice of connection class; the class constructor only
stores the connection string and timeout, so selection is completed
before any connection attempt. -/
def create_connection (connection_string : String) :
    Except ErrorData ConnectionClass :=
  let scheme := urlparseScheme connection_string
  let dbType : Except ErrorData DatabaseType :=
    if pyStartsWith scheme "postgresql" || pyStartsWith scheme "postgres" then
      .ok .postgresql
    else if pyStartsWith scheme "mysql" then .ok .mysql
    else if pyStartsWith scheme "sqlite" then .ok .sqlite
    else if pyStartsWith scheme "mongodb" then .ok .mongodb
    else if pyStartsWith scheme "redis" then .ok .redis
    else .error ⟨INTERNAL_ERROR, "Unsupported database scheme: " ++ scheme⟩
  match dbType with
  | .error e => .error e
  | .ok dt =>
      match CONNECTION_CLASSES dt with
      | some cls => .ok cls
      | Option.none =>
          .error ⟨INTERNAL_ERROR, "No connection handler for database type"⟩

/-- The scheme prefixes recognized by `DatabaseManager.create_connection`
(the source tests them with `str.startswith`). -/
def recognizesScheme (s : String) : Bool :=
  pyStartsWith s "postgresql" || pyStartsWith s "postgres" ||
  pyStartsWith s "mysql" || pyStartsWith s "sqlite" ||
  pyStartsWith s "mongodb" || pyStartsWith s "redis"

/-! ## Helper lemmas -/

theorem toNat_ofNat_validChar (n : Nat) (h : n.isValidChar) :
    (Char.ofNat n).toNat = n := by
  simp [Char.ofNat, dif_pos h, Char.ofNatAux, Char.toNat, UInt32.toNat,
    BitVec.toNat_ofNatLt]

theorem toNat_pyLowerChar_upper (c : Char) (h1 : 65 ≤ c.toNat)
    (h2 : c.toNat ≤ 90) : (pyLowerChar c).toNat = c.toNat + 32 := by
  have hv : (c.toNat + 32).isValidChar := Or.inl (by omega)
  simp only [pyLowerChar]
  rw [if_pos (by simp [h1, h2]), toNat_ofNat_validChar _ hv]

theorem pyLowerChar_of_not_upper (c : Char)
    (h : ¬(65 ≤ c.toNat ∧ c.toNat ≤ 90)) : pyLowerChar c = c := by
  simp only [pyLowerChar]
  rw [if_neg (by simpa [Bool.and_eq_true, decide_eq_true_eq] using h)]

theorem isWordChar_subChar (c : Char) : isWordChar (subChar c) = true := by
  simp only [subChar]
  split
  · assumption
  · decide

theorem subChar_of_word (c : Char) (h : isWordChar c = true) :
    subChar c = c := by
  simp [subChar, h]

theorem isLowerWord_pyLowerChar (c : Char) (h : isWordChar c = true) :
    isLowerWord (pyLowerChar c) = true := by
  simp only [isWordChar, Bool.or_eq_true, Bool.and_eq_true,
    decide_eq_true_eq] at h
  by_cases hu : 65 ≤ c.toNat ∧ c.toNat ≤ 90
  · have := toNat_pyLowerChar_upper c hu.1 hu.2
    simp only [isLowerWord, Bool.or_eq_true, Bool.and_eq_true,
      decide_eq_true_eq, this]
    omega
  · rw [pyLowerChar_of_not_upper c hu]
    simp only [isLowerWord, Bool.or_eq_true, Bool.and_eq_true,
      decide_eq_true_eq]
    omega

theorem isLowerLead_pyLowerChar (c : Char) (h : isLeadChar c = true) :
    isLowerLead (pyLowerChar c) = true := by
  simp only [isLeadChar, Bool.or_eq_true, Bool.and_eq_true,
    decide_eq_true_eq] at h
  by_cases hu : 65 ≤ c.toNat ∧ c.toNat ≤ 90
  · have := toNat_pyLowerChar_upper c hu.1 hu.2
    simp only [isLowerLead, Bool.or_eq_true, Bool.and_eq_true,
      decide_eq_true_eq, this]
    omega
  · rw [pyLowerChar_of_not_upper c hu]
    simp only [isLowerLead, Bool.or_eq_true, Bool.and_eq_true,
      decide_eq_true_eq]
    omega

theorem isWordChar_of_lowerWord (c : Char) (h : isLowerWord c = true) :
    isWordChar c = true := by
  simp only [isLowerWord, Bool.or_eq_true, Bool.and_eq_true,
    decide_eq_true_eq] at h
  simp only [isWordChar, Bool.or_eq_true, Bool.and_eq_true,
    decide_eq_true_eq]
  omega

theorem isLeadChar_of_lowerLead (c : Char) (h : isLowerLead c = true) :
    isLeadChar c = true := by
  simp only [isLowerLead, Bool.or_eq_true, Bool.and_eq_true,
    decide_eq_true_eq] at h
  simp only [isLeadChar, Bool.or_eq_true, Bool.and_eq_true,
    decide_eq_true_eq]
  omega

theorem pyLowerChar_of_lowerWord (c : Char) (h : isLowerWord c = true) :
    pyLowerChar c = c := by
  simp only [isLowerWord, Bool.or_eq_true, Bool.and_eq_true,
    decide_eq_true_eq] at h
  exact pyLowerChar_of_not_upper c (by omega)

theorem isLowerWord_of_lowerLead (c : Char) (h : isLowerLead c = true) :
    isLowerWord c = true := by
  simp only [isLowerLead, Bool.or_eq_true, Bool.and_eq_true,
    decide_eq_true_eq] at h
  simp only [isLowerWord, Bool.or_eq_true, Bool.and_eq_true,
    decide_eq_true_eq]
  omega

theorem sanitizeSub_word (l : List Char) :
    ∀ d ∈ sanitizeSub l, isWordChar d = true := by
  intro d hd
  rcases List.mem_map.mp hd with ⟨a, _, rfl⟩
  exact isWordChar_subChar a

theorem fieldChars_word : ∀ d ∈ ("field_".data : List Char),
    isWordChar d = true := by decide

theorem sanitizePrepend_spec (l : List Char)
    (h : ∀ d ∈ l, isWordChar d = true) :
    ∃ c rest, sanitizePrepend l = c :: rest ∧ isLeadChar c = true ∧
      ∀ d ∈ c :: rest, isWordChar d = true := by
  unfold sanitizePrepend
  split
  · rename_i hstart
    cases l with
    | nil => simp [startsLead] at hstart
    | cons c rest =>
        exact ⟨c, rest, rfl, by simpa [startsLead] using hstart, h⟩
  · refine ⟨'f', "ield_".data ++ l, rfl, by decide, ?_⟩
    intro d hd
    have hd2 : d ∈ ("field_".data : List Char) ++ l := hd
    rcases List.mem_append.mp hd2 with hd3 | hd3
    · exact fieldChars_word d hd3
    · exact h d hd3

theorem sanitizeTrunc_spec (c : Char) (rest : List Char)
    (h : ∀ d ∈ c :: rest, isWordChar d = true) :
    ∃ rest2, sanitizeTrunc (c :: rest) = c :: rest2 ∧
      (c :: rest2).length ≤ 63 ∧
      ∀ d ∈ c :: rest2, isWordChar d = true := by
  unfold sanitizeTrunc
  split
  · refine ⟨rest.take 62, rfl, by simp, ?_⟩
    intro d hd
    exact h d (List.take_subset 63 (c :: rest) hd)
  · rename_i hlen
    exact ⟨rest, rfl, by simp at hlen ⊢; omega, h⟩

/-- Shape of every `sanitizeChars` output: nonempty, the head matches
`[a-z_]`, every character matches `[a-z0-9_]`, and the length is at
most 63. -/
theorem sanitizeChars_spec (l : List Char) :
    ∃ c rest, sanitizeChars l = c :: rest ∧ isLowerLead c = true ∧
      (∀ d ∈ c :: rest, isLowerWord d = true) ∧ (c :: rest).length ≤ 63 := by
  rcases sanitizePrepend_spec (sanitizeSub l) (sanitizeSub_word l)
    with ⟨c, rest, hcr, hlead, hword⟩
  rcases sanitizeTrunc_spec c rest hword with ⟨rest2, htr, hlen2, hword2⟩
  refine ⟨pyLowerChar c, rest2.map pyLowerChar, ?_,
    isLowerLead_pyLowerChar c hlead, ?_, ?_⟩
  · unfold sanitizeChars
    rw [hcr, htr]
    rfl
  · intro d hd
    rw [show pyLowerChar c :: rest2.map pyLowerChar
        = (c :: rest2).map pyLowerChar from rfl] at hd
    rcases List.mem_map.mp hd with ⟨a, ha, rfl⟩
    exact isLowerWord_pyLowerChar a (hword2 a ha)
  · have h2 : (pyLowerChar c :: rest2.map pyLowerChar).length
        = (c :: rest2).length := by simp
    omega

/-- A list already of sanitized shape is a fixed point of
`sanitizeChars`. -/
theorem sanitizeChars_fixed (c : Char) (rest : List Char)
    (hlead : isLowerLead c = true)
    (hall : ∀ d ∈ c :: rest, isLowerWord d = true)
    (hlen : (c :: rest).length ≤ 63) :
    sanitizeChars (c :: rest) = c :: rest := by
  have h1 : sanitizeSub (c :: rest) = c :: rest := by
    unfold sanitizeSub
    rw [List.map_congr_left fun a ha =>
      subChar_of_word a (isWordChar_of_lowerWord a (hall a ha))]
    exact List.map_id _
  have h2 : sanitizePrepend (c :: rest) = c :: rest := by
    unfold sanitizePrepend
    rw [if_pos (by simpa [startsLead] using isLeadChar_of_lowerLead c hlead)]
  have h3 : sanitizeTrunc (c :: rest) = c :: rest := by
    unfold sanitizeTrunc
    rw [if_neg (by omega)]
  unfold sanitizeChars
  rw [h1, h2, h3]
  rw [List.map_congr_left fun a ha => pyLowerChar_of_lowerWord a (hall a ha)]
  exact List.map_id _

theorem sanitize_field_name_idem (x : String) :
    sanitize_field_name (sanitize_field_name x) = sanitize_field_name x := by
  unfold sanitize_field_name
  rcases sanitizeChars_spec x.data with ⟨c, rest, hcr, hlead, hall, hlen⟩
  simp only [hcr]
  show String.mk (sanitizeChars (c :: rest)) = String.mk (c :: rest)
  rw [sanitizeChars_fixed c rest hlead hall hlen]

theorem lookup_dictSet_self (d : List (String × PyVal)) (k : String)
    (v : PyVal) : List.lookup k (dictSet d k v) = some v := by
  induction d with
  | nil => simp [dictSet, List.lookup]
  | cons p rest ih =>
      obtain ⟨k1, v1⟩ := p
      simp only [dictSet]
      split
      · rename_i h
        simp [List.lookup, h]
      · rename_i h
        have hne : (k == k1) = false := by
          simp only [beq_eq_false_iff_ne]
          exact fun e => h e.symm
        simp [List.lookup, hne, ih]

theorem lookup_dictSet_ne (d : List (String × PyVal)) (k f : String)
    (v : PyVal) (h : f ≠ k) :
    List.lookup f (dictSet d k v) = List.lookup f d := by
  have hfk : (f == k) = false := by
    simp only [beq_eq_false_iff_ne]
    exact h
  induction d with
  | nil => simp [dictSet, List.lookup, hfk]
  | cons p rest ih =>
      obtain ⟨k1, v1⟩ := p
      simp only [dictSet]
      split
      · rename_i he
        subst he
        have hne : (f == k1) = false := by
          simp only [beq_eq_false_iff_ne]
          exact h
        simp [List.lookup, hne]
      · simp [List.lookup, ih]

theorem lookup_schemaSet_self (s : List (String × String)) (k t : String) :
    List.lookup k (schemaSet s k t) = some t := by
  induction s with
  | nil => simp [schemaSet, List.lookup]
  | cons p rest ih =>
      obtain ⟨k1, t1⟩ := p
      simp only [schemaSet]
      split
      · rename_i h
        simp [List.lookup, h]
      · rename_i h
        have hne : (k == k1) = false := by
          simp only [beq_eq_false_iff_ne]
          exact fun e => h e.symm
        simp [List.lookup, hne, ih]

theorem lookup_schemaSet_ne (s : List (String × String)) (k t f : String)
    (h : f ≠ k) :
    List.lookup f (schemaSet s k t) = List.lookup f s := by
  have hfk : (f == k) = false := by
    simp only [beq_eq_false_iff_ne]
    exact h
  induction s with
  | nil => simp [schemaSet, List.lookup, hfk]
  | cons p rest ih =>
      obtain ⟨k1, t1⟩ := p
      simp only [schemaSet]
      split
      · rename_i he
        subst he
        have hne : (f == k1) = false := by
          simp only [beq_eq_false_iff_ne]
          exact h
        simp [List.lookup, hne]
      · simp [List.lookup, ih]

theorem arrayRecords_length (r : JsonRpcResponse) (xs : List PyVal)
    (i : Nat) : (arrayRecords r xs i).length = xs.length := by
  induction xs generalizing i with
  | nil => rfl
  | cons x rest ih => simp [arrayRecords, ih]

/-! ## The claims -/

/-- C1: the claim states that a success envelope with id present and a
null result (text `{"jsonrpc":"2.0","id":1,"result":null}`) decodes
successfully and extracts one `result = null` record.  The code rejects
that envelope: `data.get("result")` cannot distinguish `"result": null`
from an absent key, so validation raises the
must-have-result-or-error `InvalidEnvelope` error.  This contradicts the
extractor branch for a null result (`jsonrpc_parser.py` lines 152–158)
and the repository test `test_null_result`, which asserts the parse
succeeds — a bug in the code. -/
theorem C1_null_result_envelope_rejected :
    parse_jsonrpc_response
        (.dict [("jsonrpc", .str "2.0"), ("id", .int 1), ("result", .none)])
      = .error (.mcp ⟨INVALID_PARAMS,
          "JSON-RPC response must have either \x27result\x27 or \x27error\x27 field"⟩) :=
  rfl

/-- C5: the input text `[]` (decoded: the empty JSON array) is rejected
by batch validation with an `InvalidEnvelope`-class error
(`INVALID_PARAMS`) before any envelope is decoded, and the pipeline front
end (decode and extract, the part before any backend is contacted)
propagates that error, producing no records. -/
theorem C5_empty_batch_rejected :
    validate_jsonrpc_batch (.list []) =
      .error (.mcp ⟨INVALID_PARAMS, "JSON-RPC batch cannot be empty"⟩) ∧
    pipelineExtract (.list []) =
      .error (.mcp ⟨INVALID_PARAMS, "JSON-RPC batch cannot be empty"⟩) :=
  ⟨rfl, rfl⟩

/-- C10: on every backend and for every target type (given or absent),
`transform_value` returns a null value unchanged: `None` is filtered out
before any backend-specific conversion. -/
theorem C10_transform_value_null (dt : DatabaseType) (tt : Option String) :
    transform_value dt .none tt = .none :=
  rfl

/-- C3 counterexample: on MySQL, a field seen as int `1` and then float
`2.5` (or in the opposite order) is widened to `TEXT`, not to MySQL's
float physical type `DOUBLE` — the conflict rule compares against the
literal names `INTEGER`/`REAL`, which are not MySQL's names. -/
theorem C3_counterexample :
    List.lookup "a"
        (infer_schema .mysql [[("a", PyVal.int 1)], [("a", PyVal.float "2.5")]])
      = some "TEXT" ∧
    List.lookup "a"
        (infer_schema .mysql [[("a", PyVal.float "2.5")], [("a", PyVal.int 1)]])
      = some "TEXT" ∧
    tmGet .mysql "float" "TEXT" = "DOUBLE" ∧ ("TEXT" : String) ≠ "DOUBLE" :=
  ⟨rfl, rfl, rfl, by decide⟩

/-- C3 (amended): the int/float schema conflict is order-independent on
every backend, but only PostgreSQL, SQLite and Redis end at the backend's
float physical type (for the first two because their names are literally
`INTEGER`/`REAL`, for Redis because int and float share the type
`string`); on MySQL and MongoDB the mismatch widens to the backend's
generic string type in either order. -/
theorem C3_int_float_conflict (dt : DatabaseType) (n : Int) (x f : String) :
    List.lookup f
        (infer_schema dt [[(f, PyVal.int n)], [(f, PyVal.float x)]]) =
      List.lookup f
        (infer_schema dt [[(f, PyVal.float x)], [(f, PyVal.int n)]]) ∧
    List.lookup f
        (infer_schema dt [[(f, PyVal.int n)], [(f, PyVal.float x)]]) =
      some (match dt with
            | .mysql => tmGet dt "str" "TEXT"
            | .mongodb => tmGet dt "str" "TEXT"
            | _ => tmGet dt "float" "TEXT") := by
  cases dt <;>
    simp [infer_schema, inferSchemaField, inferSchemaFieldCore,
      infer_field_type, tmGet, type_mappings, schemaSet, List.lookup]

/-- C8 counterexample: the connection string `mysqlx://host/db` has
scheme `mysqlx`, which is none of the five recognized schemes, yet
backend selection succeeds (MySQL) instead of failing: the source
compares schemes with `str.startswith`. -/
theorem C8_counterexample :
    urlparseScheme "mysqlx://host/db" = "mysqlx" ∧
    ("mysqlx" ∉
      (["postgres", "postgresql", "mysql", "sqlite", "mongodb", "redis"] :
        List String)) ∧
    create_connection "mysqlx://host/db" = .ok .mySQLConnection :=
  ⟨rfl, by decide, rfl⟩

/-- C8 (amended): backend selection is a deterministic function of the
connection-string scheme alone, and a scheme that does not start with one
of the recognized prefixes (`postgresql`, `postgres`, `mysql`, `sqlite`,
`mongodb`, `redis`) fails as UnsupportedBackend before any connection
object is constructed. -/
theorem C8_scheme_selection (cs1 cs2 : String)
    (h : urlparseScheme cs1 = urlparseScheme cs2) :
    create_connection cs1 = create_connection cs2 ∧
    (recognizesScheme (urlparseScheme cs1) = false →
      create_connection cs1 = .error ⟨INTERNAL_ERROR,
        "Unsupported database scheme: " ++ urlparseScheme cs1⟩) := by
  constructor
  · simp only [create_connection, h]
  · intro hrec
    simp only [recognizesScheme, Bool.or_eq_false_iff] at hrec
    obtain ⟨⟨⟨⟨⟨h1, h2⟩, h3⟩, h4⟩, h5⟩, h6⟩ := hrec
    simp [create_connection, h1, h2, h3, h4, h5, h6]

/-- C8 witness: the unrecognized scheme `foo` selects no backend and the
selection agrees across two connection strings sharing that scheme. -/
theorem C8_witness :
    create_connection "foo://a" = create_connection "foo://b" ∧
    create_connection "foo://a" = .error ⟨INTERNAL_ERROR,
      "Unsupported database scheme: " ++ urlparseScheme "foo://a"⟩ := by
  have h := C8_scheme_selection "foo://a" "foo://b" rfl
  exact ⟨h.1, h.2 rfl⟩

/-- C9 counterexample: the envelope
`{"jsonrpc":"2.0","id":1,"result":[]}` passes validation but extraction
yields zero records, so the orchestrator's zero-records early return is
reachable for a validated input. -/
theorem C9_counterexample :
    parse_jsonrpc_response
        (.dict [("jsonrpc", .str "2.0"), ("id", .int 1),
                ("result", .list [])])
      = .ok ⟨"2.0", .int 1, .list [], .none, .none, .none⟩ ∧
    extract_data_from_jsonrpc
        ⟨"2.0", .int 1, .list [], .none, .none, .none⟩ = .ok [] ∧
    pipelineExtract
        (.dict [("jsonrpc", .str "2.0"), ("id", .int 1),
                ("result", .list [])])
      = .ok [] :=
  ⟨rfl, rfl, rfl⟩

/-- C9 (amended): extraction of a validated envelope yields exactly one
record, except that a success whose result is a sequence yields one
record per element; an empty-sequence result therefore yields zero
records and the orchestrator's zero-records early return is reachable. -/
theorem C9_extract_count (r : JsonRpcResponse) (recs : List Record)
    (h : extract_data_from_jsonrpc r = .ok recs) :
    recs.length =
      (if r.is_error then 1
       else if r.is_notification then 1
       else match r.result with
            | .list xs => xs.length
            | _ => 1) := by
  unfold extract_data_from_jsonrpc at h
  cases he : r.is_error with
  | true =>
      rw [he] at h
      simp only [if_true] at h
      cases herr : errorRecord r with
      | ok rec =>
          rw [herr] at h
          simp only [Except.map] at h
          cases h
          simp [he]
      | error e =>
          rw [herr] at h
          simp only [Except.map] at h
          cases h
  | false =>
      rw [he] at h
      simp only [Bool.false_eq_true, if_false] at h
      cases hn : r.is_notification with
      | true =>
          rw [hn] at h
          simp only [if_true] at h
          cases h
          simp [he, hn]
      | false =>
          rw [hn] at h
          simp only [Bool.false_eq_true, if_false] at h
          cases h
          simp only [he, hn, Bool.false_eq_true, if_false]
          unfold successRecords
          cases hres : r.result <;> simp [arrayRecords_length]

/-- C9 witness: a validated success envelope with an object result
extracts exactly one record. -/
theorem C9_witness :
    ([[("a", PyVal.int 1), ("jsonrpc_id", PyVal.int 3),
       ("jsonrpc_version", PyVal.str "2.0"),
       ("is_success", PyVal.boolean true)]] : List Record).length =
      (if (⟨"2.0", .int 3, .dict [("a", .int 1)], .none, .none,
            .none⟩ : JsonRpcResponse).is_error then 1
       else if (⟨"2.0", .int 3, .dict [("a", .int 1)], .none, .none,
            .none⟩ : JsonRpcResponse).is_notification then 1
       else match (⟨"2.0", .int 3, .dict [("a", .int 1)], .none, .none,
            .none⟩ : JsonRpcResponse).result with
            | .list xs => xs.length
            | _ => 1) :=
  C9_extract_count _ _ rfl

/-- C6: `sanitize_field_name` is idempotent, and its output is always
non-empty, matches the anchored regex `^[a-z_][a-z0-9_]*$`, and has
length at most 63. -/
theorem C6_sanitize_idempotent_shape (x : String) :
    sanitize_field_name (sanitize_field_name x) = sanitize_field_name x ∧
    sanitize_field_name x ≠ "" ∧
    matchesSanitized (sanitize_field_name x).data = true ∧
    (sanitize_field_name x).length ≤ 63 := by
  rcases sanitizeChars_spec x.data with ⟨c, rest, hcr, hlead, hall, hlen⟩
  refine ⟨sanitize_field_name_idem x, ?_, ?_, ?_⟩
  · unfold sanitize_field_name
    rw [hcr]
    intro hcontra
    have : (c :: rest) = ([] : List Char) := congrArg String.data hcontra
    exact absurd this (by simp)
  · unfold sanitize_field_name
    rw [hcr]
    show matchesSanitized (c :: rest) = true
    simp only [matchesSanitized, hlead, Bool.true_and, List.all_eq_true]
    intro d hd
    exact hall d (List.mem_cons_of_mem c hd)
  · unfold sanitize_field_name
    rw [hcr]
    show (c :: rest).length ≤ 63
    exact hlen

theorem arrayRecords_getD (r : JsonRpcResponse) (xs : List PyVal)
    (i0 i : Nat) (h : i < xs.length) :
    (arrayRecords r xs i0).getD i [] =
      arrayItemRecord r (i0 + i) (xs.getD i PyVal.none) := by
  induction xs generalizing i0 i with
  | nil => simp at h
  | cons x rest ih =>
      cases i with
      | zero => simp [arrayRecords]
      | succ j =>
          have hj : j < rest.length := by simpa using h
          have := ih (i0 + 1) j hj
          simpa [arrayRecords, Nat.add_assoc, Nat.add_comm 1 j] using this

/-- C4: for every validated success envelope whose result is a sequence
of length N, extraction yields exactly N records in element order, each
carrying its 0-based index; mapping elements contribute their own fields
merged (overwritten where colliding) with the provenance keys, and
non-mapping elements are wrapped as result_value/result_type records. -/
theorem C4_array_result_extraction (r : JsonRpcResponse) (xs : List PyVal)
    (herr : r.error = PyVal.none) (hnot : r.is_notification = false)
    (hres : r.result = PyVal.list xs) :
    ∃ recs, extract_data_from_jsonrpc r = .ok recs ∧
      recs.length = xs.length ∧
      ∀ i, i < xs.length →
        recs.getD i [] =
          (match xs.getD i PyVal.none with
           | PyVal.dict fs =>
               dictUpdate fs
                 [("jsonrpc_id", r.id), ("jsonrpc_version", .str r.jsonrpc),
                  ("result_index", .int i), ("is_success", .boolean true)]
           | v =>
               [("jsonrpc_id", r.id), ("jsonrpc_version", .str r.jsonrpc),
                ("result_value", v), ("result_index", .int i),
                ("result_type", .str (pyTypeName v)),
                ("is_success", .boolean true)]) := by
  have hext : extract_data_from_jsonrpc r = .ok (successRecords r) := by
    unfold extract_data_from_jsonrpc
    rw [show r.is_error = false by
          simp [JsonRpcResponse.is_error, herr, PyVal.isNone], hnot]
    rfl
  refine ⟨successRecords r, hext, ?_, ?_⟩
  · unfold successRecords
    rw [hres]
    exact arrayRecords_length r xs 0
  · intro i hi
    unfold successRecords
    rw [hres]
    rw [arrayRecords_getD r xs 0 i hi]
    simp only [Nat.zero_add]
    cases hx : xs.getD i PyVal.none <;> simp [arrayItemRecord]

/-- C4 witness: a concrete success envelope with a two-element array
result (one mapping element, one primitive) extracts two indexed
records. -/
theorem C4_witness :
    ∃ recs,
      extract_data_from_jsonrpc
          (⟨"2.0", .int 5, .list [.dict [("a", .int 1)], .int 7], .none,
            .none, .none⟩ : JsonRpcResponse) = .ok recs ∧
      recs.length = ([PyVal.dict [("a", .int 1)], PyVal.int 7]).length ∧
      ∀ i, i < ([PyVal.dict [("a", .int 1)], PyVal.int 7]).length →
        recs.getD i [] =
          (match ([PyVal.dict [("a", .int 1)], PyVal.int 7]).getD i
              PyVal.none with
           | PyVal.dict fs =>
               dictUpdate fs
                 [("jsonrpc_id", PyVal.int 5),
                  ("jsonrpc_version", .str "2.0"),
                  ("result_index", .int i), ("is_success", .boolean true)]
           | v =>
               [("jsonrpc_id", PyVal.int 5),
                ("jsonrpc_version", .str "2.0"),
                ("result_value", v), ("result_index", .int i),
                ("result_type", .str (pyTypeName v)),
                ("is_success", .boolean true)]) :=
  C4_array_result_extraction _ _ rfl rfl rfl

theorem lookup_none_forall {α : Type} (f : String)
    (r : List (String × α)) (h : List.lookup f r = Option.none) :
    ∀ p ∈ r, p.1 ≠ f := by
  induction r with
  | nil => intro p hp; simp at hp
  | cons q rest ih =>
      intro p hp
      obtain ⟨k, w⟩ := q
      by_cases hk : (f == k) = true
      · simp [List.lookup, hk] at h
      · simp only [List.lookup, hk] at h
        rcases List.mem_cons.mp hp with rfl | hp2
        · intro he
          exact hk (beq_iff_eq.mpr he.symm)
        · exact ih h p hp2

theorem inferSchemaFieldCore_shape (dt : DatabaseType)
    (sch : List (String × String)) (fname ft : String) :
    inferSchemaFieldCore dt sch fname ft = sch ∨
    ∃ u, inferSchemaFieldCore dt sch fname ft = schemaSet sch fname u := by
  unfold inferSchemaFieldCore
  cases List.lookup fname sch with
  | none => exact Or.inr ⟨ft, rfl⟩
  | some t =>
      dsimp only
      by_cases h1 : t ≠ ft
      · rw [if_pos h1]
        by_cases h2 : (t = "INTEGER" && ft = "REAL") = true
        · rw [if_pos h2]
          exact Or.inr ⟨ft, rfl⟩
        · rw [if_neg h2]
          by_cases h3 : (t = "REAL" && ft = "INTEGER") = true
          · rw [if_pos h3]
            exact Or.inl rfl
          · rw [if_neg h3]
            exact Or.inr ⟨tmGet dt "str" "TEXT", rfl⟩
      · rw [if_neg h1]
        exact Or.inl rfl

theorem lookup_inferSchemaField_ne (dt : DatabaseType)
    (sch : List (String × String)) (p : String × PyVal) (f : String)
    (h : p.1 ≠ f) :
    List.lookup f (inferSchemaField dt sch p) = List.lookup f sch := by
  have hfp : f ≠ p.1 := fun e => h e.symm
  rcases inferSchemaFieldCore_shape dt sch p.1 (infer_field_type dt p.2)
    with he | ⟨u, he⟩
  · unfold inferSchemaField
    rw [he]
  · unfold inferSchemaField
    rw [he]
    exact lookup_schemaSet_ne _ _ _ _ hfp

theorem lookup_processRecord_ne (dt : DatabaseType) (rec : Record)
    (sch : List (String × String)) (f : String)
    (h : ∀ p ∈ rec, p.1 ≠ f) :
    List.lookup f (rec.foldl (inferSchemaField dt) sch) =
      List.lookup f sch := by
  induction rec generalizing sch with
  | nil => rfl
  | cons p rest ih =>
      rw [List.foldl_cons]
      rw [ih _ fun q hq => h q (List.mem_cons_of_mem p hq)]
      exact lookup_inferSchemaField_ne dt sch p f (h p (List.mem_cons_self p rest))

theorem lookup_processRecord_first (dt : DatabaseType) (rec : Record)
    (sch : List (String × String)) (f : String) (v : PyVal)
    (hsch : List.lookup f sch = Option.none)
    (hv : List.lookup f rec = some v)
    (hnodup : (rec.map Prod.fst).Nodup) :
    List.lookup f (rec.foldl (inferSchemaField dt) sch) =
      some (infer_field_type dt v) := by
  induction rec generalizing sch with
  | nil => simp [List.lookup] at hv
  | cons p rest ih =>
      obtain ⟨k, w⟩ := p
      by_cases hk : (f == k) = true
      · have hkf : k = f := (eq_of_beq hk).symm
        subst hkf
        have hw : w = v := by simpa [List.lookup] using hv
        subst hw
        rw [List.foldl_cons]
        have hstep : inferSchemaField dt sch (k, w) =
            schemaSet sch k (infer_field_type dt w) := by
          unfold inferSchemaField inferSchemaFieldCore
          rw [hsch]
        rw [hstep]
        have hrest : ∀ q ∈ rest, q.1 ≠ k := by
          intro q hq he
          simp only [List.map_cons, List.nodup_cons] at hnodup
          exact hnodup.1 (he ▸ List.mem_map_of_mem Prod.fst hq)
        rw [lookup_processRecord_ne dt rest _ k hrest]
        exact lookup_schemaSet_self sch k (infer_field_type dt w)
      · have hkf : k ≠ f := fun e => hk (by simp [e])
        have hv2 : List.lookup f rest = some v := by
          simpa [List.lookup, hk] using hv
        have hnd2 : (rest.map Prod.fst).Nodup := by
          simp only [List.map_cons, List.nodup_cons] at hnodup
          exact hnodup.2
        rw [List.foldl_cons]
        refine ih _ ?_ hv2 hnd2
        rw [lookup_inferSchemaField_ne dt sch (k, w) f hkf]
        exact hsch

theorem lookup_foldl_records_none (dt : DatabaseType) (rs : List Record)
    (sch : List (String × String)) (f : String)
    (hsch : List.lookup f sch = Option.none)
    (h : ∀ r ∈ rs, List.lookup f r = Option.none) :
    List.lookup f
        (rs.foldl (fun s r => r.foldl (inferSchemaField dt) s) sch) =
      Option.none := by
  induction rs generalizing sch with
  | nil => exact hsch
  | cons r rest ih =>
      rw [List.foldl_cons]
      refine ih _ ?_ fun q hq => h q (List.mem_cons_of_mem r hq)
      rw [lookup_processRecord_ne dt r sch f
        (lookup_none_forall f r (h r (List.mem_cons_self r rest)))]
      exact hsch

/-- C2 counterexample: on SQLite, the batch
`[{"a": null}, {"a": 1}]` assigns field `a` the type `TEXT` — both after
the first record (the initial, pre-widening assignment) and at the end —
although the first NON-null value is the int `1`, whose inferred type is
`INTEGER`.  A null first occurrence does determine the initial type,
contradicting the claim. -/
theorem C2_counterexample :
    List.lookup "a"
        (infer_schema .sqlite [[("a", PyVal.none)], [("a", PyVal.int 1)]])
      = some "TEXT" ∧
    List.lookup "a" (infer_schema .sqlite [[("a", PyVal.none)]])
      = some "TEXT" ∧
    infer_field_type .sqlite (PyVal.int 1) = "INTEGER" ∧
    ("TEXT" : String) ≠ "INTEGER" :=
  ⟨rfl, rfl, rfl, by decide⟩

/-- C2 (amended): the initial type `inferSchema` assigns to a field is
the inferred type of the first value encountered for that field in
record order, whether or not that value is null (a null value fixes the
backend's string type); records in which the field is absent do not
determine it.  Formally: processing the batch up to and including the
first record containing the field assigns it exactly the inferred type
of that record's value. -/
theorem C2_first_value_sets_initial_type (dt : DatabaseType)
    (pre : List Record) (rec : Record) (f : String) (v : PyVal)
    (hpre : ∀ r ∈ pre, List.lookup f r = Option.none)
    (hv : List.lookup f rec = some v)
    (hnodup : (rec.map Prod.fst).Nodup) :
    List.lookup f (infer_schema dt (pre ++ [rec])) =
      some (infer_field_type dt v) := by
  unfold infer_schema
  rw [show (pre ++ [rec]).isEmpty = false by
    simp [List.isEmpty_iff]]
  simp only [Bool.false_eq_true, if_false, List.foldl_append,
    List.foldl_cons, List.foldl_nil]
  refine lookup_processRecord_first dt rec _ f v ?_ hv hnodup
  exact lookup_foldl_records_none dt pre [] f rfl hpre

/-- C2 witness: a field first seen as null (after one record not
containing it) gets the null-inferred type, i.e. the backend's string
type. -/
theorem C2_witness :
    List.lookup "a"
        (infer_schema .sqlite ([[("b", PyVal.int 2)]] ++ [[("a", PyVal.none)]]))
      = some (infer_field_type .sqlite PyVal.none) :=
  C2_first_value_sets_initial_type .sqlite [[("b", PyVal.int 2)]]
    [("a", PyVal.none)] "a" PyVal.none
    (by
      intro r hr
      rw [List.mem_singleton] at hr
      subst hr
      rfl)
    rfl
    (by simp)

theorem mem_dictSet (d : List (String × PyVal)) (k : String) (v : PyVal)
    (p : String × PyVal) (hp : p ∈ dictSet d k v) :
    p ∈ d ∨ p = (k, v) := by
  induction d with
  | nil =>
      simp only [dictSet, List.mem_singleton] at hp
      exact Or.inr hp
  | cons q rest ih =>
      obtain ⟨k1, v1⟩ := q
      simp only [dictSet] at hp
      split at hp
      · rename_i hk
        rcases List.mem_cons.mp hp with rfl | hp2
        · exact Or.inr (by rw [hk])
        · exact Or.inl (List.mem_cons_of_mem _ hp2)
      · rcases List.mem_cons.mp hp with rfl | hp2
        · exact Or.inl (List.mem_cons_self _ _)
        · rcases ih hp2 with h | h
          · exact Or.inl (List.mem_cons_of_mem _ h)
          · exact Or.inr h

theorem foldl_dictSet_forall (P : String × PyVal → Prop)
    (items acc : List (String × PyVal)) (hacc : ∀ p ∈ acc, P p)
    (hitems : ∀ p ∈ items, P p) :
    ∀ p ∈ items.foldl (fun d q => dictSet d q.1 q.2) acc, P p := by
  induction items generalizing acc with
  | nil => exact hacc
  | cons q rest ih =>
      rw [List.foldl_cons]
      refine ih _ ?_ fun p hp => hitems p (List.mem_cons_of_mem q hp)
      intro p hp
      rcases mem_dictSet acc q.1 q.2 p hp with h | h
      · exact hacc p h
      · rw [h]
        exact hitems q (List.mem_cons_self q rest)

theorem pyDict_forall (P : String × PyVal → Prop)
    (items : List (String × PyVal)) (hitems : ∀ p ∈ items, P p) :
    ∀ p ∈ pyDict items, P p :=
  foldl_dictSet_forall P items [] (by simp) hitems

theorem keys_dictSet_of_mem (d : List (String × PyVal)) (k : String)
    (v : PyVal) (h : k ∈ d.map Prod.fst) :
    (dictSet d k v).map Prod.fst = d.map Prod.fst := by
  induction d with
  | nil => simp at h
  | cons q rest ih =>
      obtain ⟨k1, v1⟩ := q
      simp only [dictSet]
      split
      · rfl
      · rename_i hk
        have h2 : k ∈ rest.map Prod.fst := by
          rcases List.mem_cons.mp h with he | h2
          · exact absurd he.symm hk
          · exact h2
        simp [ih h2]

theorem dictSet_of_notmem (d : List (String × PyVal)) (k : String)
    (v : PyVal) (h : k ∉ d.map Prod.fst) :
    dictSet d k v = d ++ [(k, v)] := by
  induction d with
  | nil => rfl
  | cons q rest ih =>
      obtain ⟨k1, v1⟩ := q
      have hk : k1 ≠ k := by
        intro he
        exact h (by simp [he])
      simp only [dictSet, if_neg hk, List.cons_append, List.cons.injEq,
        true_and]
      exact ih fun hm => h (by simp [hm])

theorem keys_dictSet_nodup (d : List (String × PyVal)) (k : String)
    (v : PyVal) (h : (d.map Prod.fst).Nodup) :
    ((dictSet d k v).map Prod.fst).Nodup := by
  by_cases hm : k ∈ d.map Prod.fst
  · rw [keys_dictSet_of_mem d k v hm]
    exact h
  · rw [dictSet_of_notmem d k v hm]
    simp [List.nodup_append, h, hm]

theorem foldl_dictSet_nodup (items acc : List (String × PyVal))
    (hacc : (acc.map Prod.fst).Nodup) :
    (((items.foldl (fun d q => dictSet d q.1 q.2) acc).map
        Prod.fst)).Nodup := by
  induction items generalizing acc with
  | nil => exact hacc
  | cons q rest ih =>
      rw [List.foldl_cons]
      exact ih _ (keys_dictSet_nodup acc q.1 q.2 hacc)

theorem pyDict_keys_nodup (items : List (String × PyVal)) :
    ((pyDict items).map Prod.fst).Nodup :=
  foldl_dictSet_nodup items [] (by simp)

theorem foldl_dictSet_of_nodup (d acc : List (String × PyVal))
    (h : ((acc ++ d).map Prod.fst).Nodup) :
    d.foldl (fun a q => dictSet a q.1 q.2) acc = acc ++ d := by
  induction d generalizing acc with
  | nil => simp
  | cons q rest ih =>
      obtain ⟨k, v⟩ := q
      have hk : k ∉ acc.map Prod.fst := by
        intro hmem
        rw [List.map_append, List.nodup_append] at h
        exact h.2.2 hmem (by simp)
      rw [List.foldl_cons]
      show rest.foldl (fun a q => dictSet a q.1 q.2) (dictSet acc k v) =
        acc ++ (k, v) :: rest
      rw [dictSet_of_notmem acc k v hk]
      have := ih (acc ++ [(k, v)]) (by simpa using h)
      rw [this]
      simp

theorem pyDict_of_nodup (d : List (String × PyVal))
    (h : (d.map Prod.fst).Nodup) : pyDict d = d := by
  simpa using foldl_dictSet_of_nodup d [] (by simpa using h)

theorem flattenItems_good_aux (n : Nat) :
    ∀ (d : List (String × PyVal)) (parent : String), sizeOf d = n →
      ∀ p ∈ flattenItems d parent,
        sanitize_field_name p.1 = p.1 ∧ isScalarVal p.2 = true := by
  induction n using Nat.strong_induction_on with
  | _ n ih =>
      intro d parent hn p hp
      cases d with
      | nil =>
          rw [flattenItems] at hp
          simp at hp
      | cons q rest =>
          obtain ⟨k, v⟩ := q
          have hrestCase : p ∈ flattenItems rest parent →
              sanitize_field_name p.1 = p.1 ∧ isScalarVal p.2 = true := by
            intro h2
            have hsz : sizeOf rest < n := by
              rw [← hn]
              simp only [List.cons.sizeOf_spec]
              omega
            exact ih (sizeOf rest) hsz rest parent rfl p h2
          have hsingleton : ∀ (w : PyVal), isScalarVal w = true →
              p ∈ [(sanitize_field_name
                      (if parent = "" then k else parent ++ "_" ++ k), w)] →
              sanitize_field_name p.1 = p.1 ∧ isScalarVal p.2 = true := by
            intro w hw hmem
            rw [List.mem_singleton] at hmem
            rw [hmem]
            exact ⟨sanitize_field_name_idem _, hw⟩
          cases v with
          | dict fs =>
              simp only [flattenItems] at hp
              rcases List.mem_append.mp hp with h1 | h2
              · have hsz : sizeOf fs < n := by
                  rw [← hn]
                  simp only [List.cons.sizeOf_spec, Prod.mk.sizeOf_spec,
                    PyVal.dict.sizeOf_spec]
                  omega
                exact pyDict_forall _ _ (ih (sizeOf fs) hsz fs _ rfl) p h1
              · exact hrestCase h2
          | list xs =>
              simp only [flattenItems] at hp
              rcases List.mem_append.mp hp with h1 | h2
              · refine hsingleton _ ?_ h1
                rfl
              · exact hrestCase h2
          | none =>
              simp only [flattenItems] at hp
              rcases List.mem_append.mp hp with h1 | h2
              · refine hsingleton _ ?_ h1
                rfl
              · exact hrestCase h2
          | boolean b =>
              simp only [flattenItems] at hp
              rcases List.mem_append.mp hp with h1 | h2
              · refine hsingleton _ ?_ h1
                rfl
              · exact hrestCase h2
          | int m =>
              simp only [flattenItems] at hp
              rcases List.mem_append.mp hp with h1 | h2
              · refine hsingleton _ ?_ h1
                rfl
              · exact hrestCase h2
          | float s =>
              simp only [flattenItems] at hp
              rcases List.mem_append.mp hp with h1 | h2
              · refine hsingleton _ ?_ h1
                rfl
              · exact hrestCase h2
          | str s =>
              simp only [flattenItems] at hp
              rcases List.mem_append.mp hp with h1 | h2
              · refine hsingleton _ ?_ h1
                rfl
              · exact hrestCase h2
          | datetime s =>
              simp only [flattenItems] at hp
              rcases List.mem_append.mp hp with h1 | h2
              · refine hsingleton _ ?_ h1
                rfl
              · exact hrestCase h2
          | date s =>
              simp only [flattenItems] at hp
              rcases List.mem_append.mp hp with h1 | h2
              · refine hsingleton _ ?_ h1
                rfl
              · exact hrestCase h2
          | time s =>
              simp only [flattenItems] at hp
              rcases List.mem_append.mp hp with h1 | h2
              · refine hsingleton _ ?_ h1
                rfl
              · exact hrestCase h2
          | decimal s =>
              simp only [flattenItems] at hp
              rcases List.mem_append.mp hp with h1 | h2
              · refine hsingleton _ ?_ h1
                rfl
              · exact hrestCase h2
          | bytes bs =>
              simp only [flattenItems] at hp
              rcases List.mem_append.mp hp with h1 | h2
              · refine hsingleton _ ?_ h1
                rfl
              · exact hrestCase h2
          | uuidv s =>
              simp only [flattenItems] at hp
              rcases List.mem_append.mp hp with h1 | h2
              · refine hsingleton _ ?_ h1
                rfl
              · exact hrestCase h2

theorem flattenItems_good (d : List (String × PyVal)) (parent : String) :
    ∀ p ∈ flattenItems d parent,
      sanitize_field_name p.1 = p.1 ∧ isScalarVal p.2 = true :=
  flattenItems_good_aux (sizeOf d) d parent rfl

theorem flattenItems_of_sanitized (y : List (String × PyVal))
    (h : ∀ p ∈ y, sanitize_field_name p.1 = p.1 ∧ isScalarVal p.2 = true) :
    flattenItems y "" = y := by
  induction y with
  | nil => rw [flattenItems]
  | cons q rest ih =>
      obtain ⟨k, v⟩ := q
      have hk : sanitize_field_name k = k :=
        (h (k, v) (List.mem_cons_self _ _)).1
      have hv := (h (k, v) (List.mem_cons_self _ _)).2
      have hrest : flattenItems rest "" = rest :=
        ih fun p hp => h p (List.mem_cons_of_mem _ hp)
      cases v with
      | dict fs => simp [isScalarVal] at hv
      | list xs => simp [isScalarVal] at hv
      | none => simp [flattenItems, hrest, hk]
      | boolean b => simp [flattenItems, hrest, hk]
      | int m => simp [flattenItems, hrest, hk]
      | float s => simp [flattenItems, hrest, hk]
      | str s => simp [flattenItems, hrest, hk]
      | datetime s => simp [flattenItems, hrest, hk]
      | date s => simp [flattenItems, hrest, hk]
      | time s => simp [flattenItems, hrest, hk]
      | decimal s => simp [flattenItems, hrest, hk]
      | bytes bs => simp [flattenItems, hrest, hk]
      | uuidv s => simp [flattenItems, hrest, hk]

/-- C7: on JSON-derived records (the only ones the pipeline flattens),
`flatten` applied to its own output is a no-op, and no mapping-typed (or
sequence-typed) value remains anywhere in its output. -/
theorem C7_flatten_idempotent (r : Record) (h : isJsonRecord r = true) :
    flatten_nested_dict (flatten_nested_dict r "") "" =
      flatten_nested_dict r "" ∧
    ∀ p ∈ flatten_nested_dict r "", isScalarVal p.2 = true := by
  have hgood : ∀ p ∈ flatten_nested_dict r "",
      sanitize_field_name p.1 = p.1 ∧ isScalarVal p.2 = true :=
    pyDict_forall _ _ (flattenItems_good r "")
  have hnodup : ((flatten_nested_dict r "").map Prod.fst).Nodup :=
    pyDict_keys_nodup _
  constructor
  · show pyDict (flattenItems (flatten_nested_dict r "") "") =
      flatten_nested_dict r ""
    rw [flattenItems_of_sanitized _ hgood]
    exact pyDict_of_nodup _ hnodup
  · intro p hp
    exact (hgood p hp).2

/-- C7 witness: a concrete JSON record with a nested mapping and a
sequence value satisfies the hypothesis and the conclusion. -/
theorem C7_witness :
    isJsonRecord
        [("User Name", PyVal.str "Ann"),
         ("b", PyVal.dict [("c", PyVal.int 1)]),
         ("d", PyVal.list [PyVal.int 2])] = true ∧
    (flatten_nested_dict
        (flatten_nested_dict
          [("User Name", PyVal.str "Ann"),
           ("b", PyVal.dict [("c", PyVal.int 1)]),
           ("d", PyVal.list [PyVal.int 2])] "") "" =
      flatten_nested_dict
          [("User Name", PyVal.str "Ann"),
           ("b", PyVal.dict [("c", PyVal.int 1)]),
           ("d", PyVal.list [PyVal.int 2])] "" ∧
    ∀ p ∈ flatten_nested_dict
          [("User Name", PyVal.str "Ann"),
           ("b", PyVal.dict [("c", PyVal.int 1)]),
           ("d", PyVal.list [PyVal.int 2])] "",
        isScalarVal p.2 = true) :=
  ⟨by simp [isJsonRecord, isJsonVal],
   C7_flatten_idempotent _ (by simp [isJsonRecord, isJsonVal])⟩

end McpDbInsert
